import Mathlib

/-
Shallow embedding of the order/broadcast core of the ToolBox repository
(`WorkBox/api/server.py`, together with the request schemas of
`WorkBox/api/schemas.py`).

Conventions of the embedding:
  * Python integers are `Int` (stock may go negative: the code stores
    `stock_quantity - quantity` without clamping); ids are `Nat`.
  * Python `float` prices/amounts are modelled as exact rationals `ℚ`;
    every arithmetic step of the source is mirrored one-to-one, so the
    algebraic claims below do not depend on rounding.
  * The database session is a record `DB` threaded through every step;
    an `HTTPException` is an `ApiError` carrying the status code and the
    detail string built exactly as in the source.
  * SQLAlchemy queries `query(M).filter(M.id == i).first()` become
    `findItem`, and `query(M).filter(M.id == i).update({...})` becomes
    `updateStock`.
-/

namespace ToolBox

/-- Inventory row as used by `server.py` (`db_inventory.id`, `.name`,
`.stock_quantity`, `.price`). The module that declared this model is not
part of the sources (the checked-in `models.py` belongs to another
prototype); the fields are taken from every access `server.py` makes,
which coincide with the spec's InventoryItem (identifier, display name,
unit price, stock quantity). -/
structure InventoryItem where
  id : Nat
  name : String
  stock_quantity : Int
  price : ℚ
deriving Repr, DecidableEq

/-- The inventory table: a list of rows. -/
abbrev Inventory := List InventoryItem

/-- Embedding of `db.query(InventoryModel).filter(InventoryModel.id == i).first()`. -/
def findItem (inv : Inventory) (i : Nat) : Option InventoryItem :=
  inv.find? (fun it => it.id == i)

/-- Embedding of
`db.query(InventoryModel).filter(InventoryModel.id == i).update({"stock_quantity": s})`:
every row matching the filter gets the new stock value. -/
def updateStock (inv : Inventory) (i : Nat) (s : Int) : Inventory :=
  inv.map (fun it => if it.id == i then { it with stock_quantity := s } else it)

/-- Request line, `schemas.OrderItemCreate` (= `OrderItemBase`):
`inventory_id : int`, `quantity : int` (`gt=0` enforced by the schema
validator below, not by the type), `price : float` (`gt=0`). -/
structure OrderItemCreate where
  inventory_id : Nat
  quantity : Int
  price : ℚ
deriving Repr, DecidableEq

/-- Request body, `schemas.OrderCreate` (= `OrderBase` plus `items`):
`user_id`, `status` (defaulted), `total_amount : float` (`gt=0`),
`items : List[OrderItemCreate]` (no length constraint). -/
structure OrderCreate where
  user_id : Nat
  status : String
  total_amount : ℚ
  items : List OrderItemCreate
deriving Repr, DecidableEq

/-- Pydantic field validation of one `OrderItemBase`: `quantity` and
`price` both carry `Field(..., gt=0)`. -/
def orderItemSchemaValid (it : OrderItemCreate) : Bool :=
  it.quantity > 0 && it.price > 0

/-- Pydantic validation of the whole `OrderCreate` body: `total_amount`
carries `Field(..., gt=0)` and every item must satisfy its own field
constraints. An empty `items` list is accepted (no `min_items`). -/
def orderCreateSchemaValid (o : OrderCreate) : Bool :=
  o.total_amount > 0 && o.items.all orderItemSchemaValid

/-- Persisted order line (`OrderItemModel(inventory_id=..., quantity=...,
unit_price=db_inventory.price)` in `create_order`). -/
structure OrderItemRec where
  inventory_id : Nat
  quantity : Int
  unit_price : ℚ
deriving Repr, DecidableEq

/-- Persisted order (`OrderModel(user_id=..., total_amount=...,
status="confirmed", items=order_items)` in `create_order`, with the id
assigned at commit). -/
structure OrderRec where
  id : Nat
  user_id : Nat
  total_amount : ℚ
  status : String
  items : List OrderItemRec
deriving Repr, DecidableEq

/-- An `HTTPException(status_code=..., detail=...)`. -/
structure ApiError where
  status_code : Nat
  detail : String
deriving Repr, DecidableEq

/-- Messages broadcast over the hub: `InventoryUpdateMessage(inventory_id,
name, stock_quantity, price)` and `OrderPlacedMessage(order_id, user_id,
total_amount, items)`, with the fields `server.py` passes at the two
construction sites (the class declarations themselves are in the missing
schemas module; each `order_placed` line dict carries
`inventory_id`, `name`, `quantity`, `unit_price`). -/
inductive Event where
  | inventory_update (inventory_id : Nat) (name : String)
      (stock_quantity : Int) (price : ℚ)
  | order_placed (order_id : Nat) (user_id : Nat) (total_amount : ℚ)
      (items : List (Nat × String × Int × ℚ))
deriving Repr, DecidableEq

/-- Database state threaded through a request: user ids, the inventory
table, the committed orders, and the autoincrement counter for order ids. -/
structure DB where
  users : List Nat
  inventory : Inventory
  orders : List OrderRec
  nextOrderId : Nat
deriving Repr, DecidableEq

/-- Validation loop of `create_order` (server.py lines 169-198): walk the
request lines; a missing item raises 404 naming the id, insufficient
stock raises 400 with the item name and the available quantity; otherwise
the running total gains `price * quantity` and an order line snapshotting
the current price is appended. No database write happens in this loop. -/
def validateLines (inv : Inventory) :
    List OrderItemCreate → Except ApiError (ℚ × List OrderItemRec)
  | [] => .ok (0, [])
  | it :: rest =>
    match findItem inv it.inventory_id with
    | none =>
        .error ⟨404, "Inventory item " ++ toString it.inventory_id ++ " not found"⟩
    | some dbInv =>
        if dbInv.stock_quantity < it.quantity then
          .error ⟨400, "Insufficient stock for " ++ dbInv.name ++
                  ". Available: " ++ toString dbInv.stock_quantity⟩
        else
          match validateLines inv rest with
          | .error e => .error e
          | .ok (t, ois) =>
              .ok (dbInv.price * (it.quantity : ℚ) + t,
                   ⟨it.inventory_id, it.quantity, dbInv.price⟩ :: ois)

/-- Post-commit stock loop of `create_order` (server.py lines 213-237):
for each request line, look the item up again; if the lookup returns
nothing the line is skipped silently, otherwise the stock is set to
`stock_quantity - quantity`, the row is refreshed, and one
`inventory_update` message is broadcast with the refreshed values. -/
def applyDecrements (inv : Inventory) :
    List OrderItemCreate → Inventory × List Event
  | [] => (inv, [])
  | it :: rest =>
    match findItem inv it.inventory_id with
    | none => applyDecrements inv rest
    | some dbInv =>
        let newStock := dbInv.stock_quantity - it.quantity
        let inv1 := updateStock inv it.inventory_id newStock
        let refreshed : InventoryItem := { dbInv with stock_quantity := newStock }
        let res := applyDecrements inv1 rest
        (res.1,
         Event.inventory_update refreshed.id refreshed.name
           refreshed.stock_quantity refreshed.price :: res.2)

/-- Construction of the `order_placed` item dicts (server.py lines
244-252): each committed line contributes
`(inventory_id, item.inventory.name, quantity, unit_price)`. The lazy
relationship `item.inventory` re-reads the inventory row at this point;
when that row no longer exists the relationship is `None` and reading
`.name` raises (surfaced as a 500 by the framework). -/
def orderPlacedItems (inv : Inventory) :
    List OrderItemRec → Except ApiError (List (Nat × String × Int × ℚ))
  | [] => .ok []
  | oi :: rest =>
    match findItem inv oi.inventory_id with
    | none => .error ⟨500, "AttributeError"⟩
    | some dbInv =>
        match orderPlacedItems inv rest with
        | .error e => .error e
        | .ok tl => .ok ((oi.inventory_id, dbInv.name, oi.quantity, oi.unit_price) :: tl)

/-- Everything `create_order` does after the order row is committed
(server.py lines 212-254): run the stock decrement loop, then build and
broadcast the `order_placed` message, then return the committed order.
`inv` is the inventory table as it stands when this phase starts. -/
def postCommitPhase (inv : Inventory) (dbOrder : OrderRec)
    (reqItems : List OrderItemCreate) :
    Except ApiError OrderRec × Inventory × List Event :=
  let dec := applyDecrements inv reqItems
  match orderPlacedItems dec.1 dbOrder.items with
  | .error e => (.error e, dec.1, dec.2)
  | .ok msgItems =>
      (.ok dbOrder, dec.1,
       dec.2 ++ [Event.order_placed dbOrder.id dbOrder.user_id
                   dbOrder.total_amount msgItems])

/-- Commit of the order row (server.py lines 200-210) followed by the
post-commit phase. `v` is the pair produced by the validation loop. -/
def finishOrder (db : DB) (o : OrderCreate) (v : ℚ × List OrderItemRec) :
    Except ApiError OrderRec × DB × List Event :=
  let dbOrder : OrderRec := ⟨db.nextOrderId, o.user_id, v.1, "confirmed", v.2⟩
  let db1 : DB := { db with orders := db.orders ++ [dbOrder],
                            nextOrderId := db.nextOrderId + 1 }
  let post := postCommitPhase db1.inventory dbOrder o.items
  (post.1, { db1 with inventory := post.2.1 }, post.2.2)

/-- The `POST /orders/` handler `create_order` (server.py lines 162-256):
check the user exists (404 otherwise), validate every line, commit the
order with status "confirmed", then decrement stock and broadcast. The
returned triple is (handler result, database after the call, messages
broadcast during the call, in order). -/
def create_order (db : DB) (o : OrderCreate) :
    Except ApiError OrderRec × DB × List Event :=
  if db.users.contains o.user_id then
    match validateLines db.inventory o.items with
    | .error e => (.error e, db, [])
    | .ok v => finishOrder db o v
  else
    (.error ⟨404, "User not found"⟩, db, [])

/-- The full request pipeline: FastAPI runs the pydantic schema
validation of the body first (422 on failure) and only then calls the
handler. -/
def submit_order (db : DB) (o : OrderCreate) :
    Except ApiError OrderRec × DB × List Event :=
  if orderCreateSchemaValid o then create_order db o
  else (.error ⟨422, "request body failed schema validation"⟩, db, [])

/-- Same handler body as `create_order`, run in an environment where
other sessions changed the inventory table between the order commit and
the post-commit stock loop: the validation loop reads `db.inventory`, the
post-commit phase reads `invAtDecrement`. With
`invAtDecrement = db.inventory` this is exactly `create_order`. -/
def create_order_interfered (db : DB) (invAtDecrement : Inventory)
    (o : OrderCreate) : Except ApiError OrderRec × DB × List Event :=
  if db.users.contains o.user_id then
    match validateLines db.inventory o.items with
    | .error e => (.error e, db, [])
    | .ok v =>
        let dbOrder : OrderRec := ⟨db.nextOrderId, o.user_id, v.1, "confirmed", v.2⟩
        let db1 : DB := { db with orders := db.orders ++ [dbOrder],
                                  nextOrderId := db.nextOrderId + 1,
                                  inventory := invAtDecrement }
        let post := postCommitPhase invAtDecrement dbOrder o.items
        (post.1, { db1 with inventory := post.2.1 }, post.2.2)
  else
    (.error ⟨404, "User not found"⟩, db, [])

/-- One interleaving of two concurrent `create_order` calls against the
shared database: both requests pass the user check and the validation
loop against the same initial state (the validation loop performs no
write), then the first call commits and runs its stock loop, then the
second does. Nothing in the handler takes a lock or opens a transaction
spanning validation and decrement, so this schedule is realizable.
Result: (outcome of call 1, outcome of call 2, final database). -/
def race_both_validate_first (db : DB) (o1 o2 : OrderCreate) :
    Except ApiError OrderRec × Except ApiError OrderRec × DB :=
  let v1 : Except ApiError (ℚ × List OrderItemRec) :=
    if db.users.contains o1.user_id then validateLines db.inventory o1.items
    else .error ⟨404, "User not found"⟩
  let v2 : Except ApiError (ℚ × List OrderItemRec) :=
    if db.users.contains o2.user_id then validateLines db.inventory o2.items
    else .error ⟨404, "User not found"⟩
  match v1 with
  | .error e1 =>
      match v2 with
      | .error e2 => (.error e1, .error e2, db)
      | .ok w => let r2 := finishOrder db o2 w; (.error e1, r2.1, r2.2.1)
  | .ok v =>
      let r1 := finishOrder db o1 v
      match v2 with
      | .error e2 => (r1.1, .error e2, r1.2.1)
      | .ok w => let r2 := finishOrder r1.2.1 o2 w; (r1.1, r2.1, r2.2.1)

/-! ## The WebSocket `ConnectionManager` -/

/-- One WebSocket connection: an identity plus whether `send_json` raises
for it during the broadcast under consideration. -/
structure Conn where
  id : Nat
  fails : Bool
deriving Repr, DecidableEq

/-- Embedding of Python `list.remove(w)` minus its error case: drops the
first element equal to `w`, returns the list unchanged when absent. -/
def removeFirst : List Conn → Conn → List Conn
  | [], _ => []
  | c :: rest, w => if c = w then rest else c :: removeFirst rest w

/-- Python errors the embedding distinguishes. -/
inductive PyError where
  | valueError
deriving Repr, DecidableEq

/-- `ConnectionManager.connect` (after the accept): appends the socket to
`active_connections`; no deduplication. -/
def connect (conns : List Conn) (w : Conn) : List Conn :=
  conns ++ [w]

/-- `ConnectionManager.disconnect`:
`self.active_connections.remove(websocket)`. Python `list.remove` raises
`ValueError` when the value is absent, so disconnecting an observer that
is not in the active set is an error, not a no-op. -/
def disconnect (conns : List Conn) (w : Conn) : Except PyError (List Conn) :=
  if w ∈ conns then .ok (removeFirst conns w) else .error .valueError

/-- Loop body of `ConnectionManager.broadcast`: a Python `for` over the
live list keeps an index, yields `conns[i]`, runs the body, then looks at
`conns[i+1]` of the *possibly mutated* list. A failing `send_json` runs
`self.active_connections.remove(connection)` (the yielded element is
present, so this `remove` never raises). The fuel argument only bounds
the iteration count: the index grows by one per step while the list never
grows, so `conns.length` steps always reach `i ≥ length` and the
zero-fuel case is unreachable from `broadcast`. Returns (final active
list, connections whose send succeeded, in delivery order). -/
def broadcastGo : Nat → List Conn → Nat → List Conn → List Conn × List Conn
  | 0, conns, _, delivered => (conns, delivered)
  | fuel + 1, conns, i, delivered =>
    if h : i < conns.length then
      let c := conns.get ⟨i, h⟩
      if c.fails then broadcastGo fuel (removeFirst conns c) (i + 1) delivered
      else broadcastGo fuel conns (i + 1) (delivered ++ [c])
    else (conns, delivered)

/-- `ConnectionManager.broadcast` (server.py lines 52-59). -/
def broadcast (conns : List Conn) : List Conn × List Conn :=
  broadcastGo conns.length conns 0 []

/-! ## Concrete scenarios -/

/-- Database with one user (id 7) and item A: id 1, stock 5, price 10. -/
def dbA : DB := ⟨[7], [⟨1, "A", 5, 10⟩], [], 1⟩

/-- Order request with two lines, each asking for 3 units of item 1. -/
def reqDup : OrderCreate := ⟨7, "pending", 1, [⟨1, 3, 1⟩, ⟨1, 3, 1⟩]⟩

/-- Database with one user (id 7) and item A: id 1, stock 1, price 10. -/
def dbRace : DB := ⟨[7], [⟨1, "A", 1, 10⟩], [], 1⟩

/-- Order request asking for the single remaining unit of item 1. -/
def reqOne : OrderCreate := ⟨7, "pending", 1, [⟨1, 1, 1⟩]⟩

/-- Database with user 7 and items A (id 1, stock 5, price 10) and
B (id 2, stock 5, price 5). -/
def dbAB : DB := ⟨[7], [⟨1, "A", 5, 10⟩, ⟨2, "B", 5, 5⟩], [], 1⟩

/-- Order request for 3 units of item 1 and 2 units of item 2. -/
def reqAB3 : OrderCreate := ⟨7, "pending", 1, [⟨1, 3, 1⟩, ⟨2, 2, 1⟩]⟩

/-- Order request for 2 units of item 1 and 1 unit of item 2 (the spec
scenario whose total is 25). -/
def req25 : OrderCreate := ⟨7, "pending", 1, [⟨1, 2, 1⟩, ⟨2, 1, 1⟩]⟩

/-- The order `req25` commits against `dbAB`. -/
def ord25 : OrderRec := ⟨1, 7, 25, "confirmed", [⟨1, 2, 10⟩, ⟨2, 1, 5⟩]⟩

/-- Order request for 6 units of item 1 (stock is 5). -/
def reqSix : OrderCreate := ⟨7, "pending", 1, [⟨1, 6, 1⟩]⟩

/-- Order request for 7 units of item 1 (stock is 5). -/
def reqSeven : OrderCreate := ⟨7, "pending", 1, [⟨1, 7, 1⟩]⟩

/-- Order request whose second line references the nonexistent item 9. -/
def reqMissing9 : OrderCreate := ⟨7, "pending", 1, [⟨1, 2, 1⟩, ⟨9, 2, 1⟩]⟩

/-- Order request for 9 units of item 2 (stock is 5). -/
def reqBNine : OrderCreate := ⟨7, "pending", 1, [⟨2, 9, 1⟩]⟩

/-- Order request with no lines at all. -/
def reqEmpty : OrderCreate := ⟨7, "pending", 1, []⟩

/-- Order request with a non-positive quantity. -/
def reqNeg : OrderCreate := ⟨7, "pending", 1, [⟨1, -1, 1⟩]⟩

/-- Order request for 1 unit each of items 1 and 2. -/
def reqAB : OrderCreate := ⟨7, "pending", 1, [⟨1, 1, 1⟩, ⟨2, 1, 1⟩]⟩

/-- The inventory table after a concurrent delete of item 2. -/
def invNoB : Inventory := [⟨1, "A", 5, 10⟩]

/-- Observer whose send raises. -/
def obsA : Conn := ⟨0, true⟩

/-- Healthy observer directly after the failing one. -/
def obsB : Conn := ⟨1, false⟩

/-- Healthy observer at the end of the active list. -/
def obsC : Conn := ⟨2, false⟩

/-- Healthy observer with id 10. -/
def w0 : Conn := ⟨10, false⟩

/-- Healthy observer with id 11. -/
def w1 : Conn := ⟨11, false⟩

/-! ## Supporting definitions for the statements -/

/-- Occurrences of an observer in an active list. -/
def countConn (l : List Conn) (w : Conn) : Nat :=
  l.countP (fun c => decide (c = w))

/-- The inventory id carried by an `inventory_update` event, `none` for
`order_placed`. -/
def eventInvId : Event → Option Nat
  | .inventory_update i _ _ _ => some i
  | .order_placed _ _ _ _ => none

/-- A request line passes the per-line validation: the referenced item
exists and has at least the requested stock. -/
def lineOk (inv : Inventory) (it : OrderItemCreate) : Prop :=
  ∃ d, findItem inv it.inventory_id = some d ∧ it.quantity ≤ d.stock_quantity

/-! ## Lemmas about the inventory table -/

theorem findItem_id_eq {inv : Inventory} {i : Nat} {d : InventoryItem}
    (h : findItem inv i = some d) : d.id = i := by
  have := List.find?_some h
  simpa using this

theorem findItem_updateStock (inv : Inventory) (i : Nat) (s : Int) (j : Nat) :
    findItem (updateStock inv i s) j =
      Option.map (fun it => if it.id == i then { it with stock_quantity := s } else it)
        (findItem inv j) := by
  induction inv with
  | nil => rfl
  | cons c tl ih =>
    simp only [findItem, updateStock, List.map_cons] at ih ⊢
    have hid : (if (c.id == i) = true then { c with stock_quantity := s } else c).id
        = c.id := by
      split <;> rfl
    rw [List.find?_cons, List.find?_cons, hid]
    cases hcj : (c.id == j) with
    | true => rfl
    | false => exact ih

theorem findItem_updateStock_isSome (inv : Inventory) (i : Nat) (s : Int) (j : Nat) :
    (findItem (updateStock inv i s) j).isSome = (findItem inv j).isSome := by
  rw [findItem_updateStock]
  cases findItem inv j <;> rfl

theorem applyDecrements_isSome :
    ∀ (items : List OrderItemCreate) (inv : Inventory) (j : Nat),
      (findItem (applyDecrements inv items).1 j).isSome = (findItem inv j).isSome
  | [], inv, j => rfl
  | it :: rest, inv, j => by
    rw [applyDecrements]
    cases h : findItem inv it.inventory_id with
    | none => exact applyDecrements_isSome rest inv j
    | some d =>
      simp only
      rw [applyDecrements_isSome rest _ j, findItem_updateStock_isSome]

theorem applyDecrements_none {inv : Inventory} {j : Nat}
    (h : findItem inv j = none) (items : List OrderItemCreate) :
    findItem (applyDecrements inv items).1 j = none := by
  have := applyDecrements_isSome items inv j
  rw [h] at this
  cases h2 : findItem (applyDecrements inv items).1 j with
  | none => rfl
  | some d => rw [h2] at this; simp at this

theorem applyDecrements_events_ids :
    ∀ (items : List OrderItemCreate) (inv : Inventory),
      (∀ it ∈ items, (findItem inv it.inventory_id).isSome = true) →
      (applyDecrements inv items).2.map eventInvId =
        items.map (fun it => some it.inventory_id)
  | [], _, _ => rfl
  | it :: rest, inv, hpres => by
    cases h : findItem inv it.inventory_id with
    | none =>
      have := hpres it (List.mem_cons_self it rest)
      rw [h] at this
      simp at this
    | some d =>
      rw [applyDecrements, h]
      simp only [List.map_cons, eventInvId]
      rw [findItem_id_eq h,
        applyDecrements_events_ids rest _ (by
          intro x hx
          rw [findItem_updateStock_isSome]
          exact hpres x (List.mem_cons_of_mem it hx))]

theorem applyDecrements_no_event_for_absent :
    ∀ (items : List OrderItemCreate) (inv : Inventory) {j : Nat},
      findItem inv j = none →
      ∀ ev ∈ (applyDecrements inv items).2, eventInvId ev ≠ some j
  | [], inv, j, _, ev, hev => by simp [applyDecrements] at hev
  | it :: rest, inv, j, habs, ev, hev => by
    cases h : findItem inv it.inventory_id with
    | none =>
      rw [applyDecrements, h] at hev
      exact applyDecrements_no_event_for_absent rest inv habs ev hev
    | some d =>
      rw [applyDecrements, h] at hev
      simp only [List.mem_cons] at hev
      cases hev with
      | inl he =>
        subst he
        simp only [eventInvId, Option.some.injEq, ne_eq]
        intro hdj
        have hfid := findItem_id_eq h
        rw [hfid] at hdj
        rw [← hdj] at habs
        rw [habs] at h
        exact Option.noConfusion h
      | inr he =>
        refine applyDecrements_no_event_for_absent rest _ ?_ ev he
        rw [findItem_updateStock]
        rw [habs]
        rfl

/-! ## Lemmas about the validation loop -/

theorem validateLines_ok_forall :
    ∀ {items : List OrderItemCreate} {inv : Inventory} {v : ℚ × List OrderItemRec},
      validateLines inv items = .ok v → ∀ it ∈ items, lineOk inv it
  | [], _, _, _, it, hit => by cases hit
  | it0 :: rest, inv, v, h, it, hit => by
    rw [validateLines] at h
    cases hf : findItem inv it0.inventory_id with
    | none => rw [hf] at h; cases h
    | some d =>
      rw [hf] at h
      dsimp only at h
      by_cases hs : d.stock_quantity < it0.quantity
      · rw [if_pos hs] at h; cases h
      · rw [if_neg hs] at h
        cases hr : validateLines inv rest with
        | error e => rw [hr] at h; cases h
        | ok w =>
          cases hit with
          | head => exact ⟨d, hf, le_of_not_lt hs⟩
          | tail _ hmem => exact validateLines_ok_forall hr it hmem

theorem validateLines_error_of_bad {items : List OrderItemCreate} {inv : Inventory}
    (h : ∃ it ∈ items, ¬ lineOk inv it) :
    ∃ e, validateLines inv items = .error e := by
  cases hv : validateLines inv items with
  | error e => exact ⟨e, rfl⟩
  | ok v =>
    obtain ⟨it, hmem, hbad⟩ := h
    exact absurd (validateLines_ok_forall hv it hmem) hbad

theorem validateLines_ok_total :
    ∀ {items : List OrderItemCreate} {inv : Inventory} {t : ℚ} {ois : List OrderItemRec},
      validateLines inv items = .ok (t, ois) →
      t = (ois.map (fun oi => (oi.quantity : ℚ) * oi.unit_price)).sum
  | [], _, t, ois, h => by
    rw [validateLines] at h
    cases h
    rfl
  | it0 :: rest, inv, t, ois, h => by
    rw [validateLines] at h
    cases hf : findItem inv it0.inventory_id with
    | none => rw [hf] at h; cases h
    | some d =>
      rw [hf] at h
      dsimp only at h
      by_cases hs : d.stock_quantity < it0.quantity
      · rw [if_pos hs] at h; cases h
      · rw [if_neg hs] at h
        cases hr : validateLines inv rest with
        | error e => rw [hr] at h; cases h
        | ok w =>
          rw [hr] at h
          cases h
          rw [List.map_cons, List.sum_cons, ← validateLines_ok_total hr]
          ring

theorem validateLines_ok_ids :
    ∀ {items : List OrderItemCreate} {inv : Inventory} {t : ℚ} {ois : List OrderItemRec},
      validateLines inv items = .ok (t, ois) →
      ois.map (fun oi => oi.inventory_id) = items.map (fun it => it.inventory_id)
  | [], _, t, ois, h => by
    rw [validateLines] at h
    cases h
    rfl
  | it0 :: rest, inv, t, ois, h => by
    rw [validateLines] at h
    cases hf : findItem inv it0.inventory_id with
    | none => rw [hf] at h; cases h
    | some d =>
      rw [hf] at h
      dsimp only at h
      by_cases hs : d.stock_quantity < it0.quantity
      · rw [if_pos hs] at h; cases h
      · rw [if_neg hs] at h
        cases hr : validateLines inv rest with
        | error e => rw [hr] at h; cases h
        | ok w =>
          rw [hr] at h
          cases h
          rw [List.map_cons, List.map_cons, validateLines_ok_ids hr]

theorem validateLines_ok_snapshot :
    ∀ {items : List OrderItemCreate} {inv : Inventory} {t : ℚ} {ois : List OrderItemRec},
      validateLines inv items = .ok (t, ois) →
      ∀ oi ∈ ois, ∃ d, findItem inv oi.inventory_id = some d ∧ oi.unit_price = d.price
  | [], _, t, ois, h => by
    rw [validateLines] at h
    cases h
    intro oi hoi
    cases hoi
  | it0 :: rest, inv, t, ois, h => by
    rw [validateLines] at h
    cases hf : findItem inv it0.inventory_id with
    | none => rw [hf] at h; cases h
    | some d =>
      rw [hf] at h
      dsimp only at h
      by_cases hs : d.stock_quantity < it0.quantity
      · rw [if_pos hs] at h; cases h
      · rw [if_neg hs] at h
        cases hr : validateLines inv rest with
        | error e => rw [hr] at h; cases h
        | ok w =>
          rw [hr] at h
          cases h
          intro oi hoi
          cases hoi with
          | head => exact ⟨d, hf, rfl⟩
          | tail _ hmem => exact validateLines_ok_snapshot hr oi hmem

theorem validateLines_append_ok_prefix :
    ∀ {pre : List OrderItemCreate} {inv : Inventory} {l : List OrderItemCreate} {e : ApiError},
      (∀ p ∈ pre, lineOk inv p) → validateLines inv l = .error e →
      validateLines inv (pre ++ l) = .error e
  | [], _, _, _, _, hl => hl
  | p :: pre, inv, l, e, hpre, hl => by
    obtain ⟨d, hf, hle⟩ := hpre p (List.mem_cons_self p pre)
    rw [List.cons_append, validateLines, hf]
    dsimp only
    rw [if_neg (not_lt.mpr hle),
      validateLines_append_ok_prefix (fun q hq => hpre q (List.mem_cons_of_mem p hq)) hl]

/-! ## Lemmas about the order-placed message construction -/

theorem orderPlacedItems_ok_of_present :
    ∀ {ois : List OrderItemRec} {inv : Inventory},
      (∀ oi ∈ ois, (findItem inv oi.inventory_id).isSome = true) →
      ∃ l, orderPlacedItems inv ois = .ok l
  | [], _, _ => ⟨[], rfl⟩
  | oi :: rest, inv, hpres => by
    cases hf : findItem inv oi.inventory_id with
    | none =>
      have := hpres oi (List.mem_cons_self oi rest)
      rw [hf] at this
      cases this
    | some d =>
      obtain ⟨l, hl⟩ := orderPlacedItems_ok_of_present
        (fun x hx => hpres x (List.mem_cons_of_mem oi hx))
      exact ⟨_, by rw [orderPlacedItems, hf, hl]⟩

theorem orderPlacedItems_error_of_absent :
    ∀ {ois : List OrderItemRec} {inv : Inventory},
      (∃ oi ∈ ois, findItem inv oi.inventory_id = none) →
      orderPlacedItems inv ois = .error ⟨500, "AttributeError"⟩
  | [], _, h => by
    obtain ⟨oi, hmem, _⟩ := h
    cases hmem
  | oi0 :: rest, inv, h => by
    cases hf : findItem inv oi0.inventory_id with
    | none => rw [orderPlacedItems, hf]
    | some d =>
      obtain ⟨oi, hmem, habs⟩ := h
      cases hmem with
      | head => rw [hf] at habs; cases habs
      | tail _ hmem2 =>
        rw [orderPlacedItems, hf, orderPlacedItems_error_of_absent ⟨oi, hmem2, habs⟩]

/-! ## Lemmas about the whole handler -/

theorem create_order_of_valid {db : DB} {o : OrderCreate} {t : ℚ}
    {ois : List OrderItemRec}
    (hu : db.users.contains o.user_id = true)
    (hv : validateLines db.inventory o.items = .ok (t, ois)) :
    ∃ msgItems,
      create_order db o =
        (.ok ⟨db.nextOrderId, o.user_id, t, "confirmed", ois⟩,
         { users := db.users,
           inventory := (applyDecrements db.inventory o.items).1,
           orders := db.orders ++ [⟨db.nextOrderId, o.user_id, t, "confirmed", ois⟩],
           nextOrderId := db.nextOrderId + 1 },
         (applyDecrements db.inventory o.items).2 ++
           [Event.order_placed db.nextOrderId o.user_id t msgItems]) := by
  have hpres : ∀ oi ∈ ois,
      (findItem (applyDecrements db.inventory o.items).1 oi.inventory_id).isSome
        = true := by
    intro oi hoi
    rw [applyDecrements_isSome]
    have hids := validateLines_ok_ids hv
    have hmem : oi.inventory_id ∈ ois.map (fun oi => oi.inventory_id) :=
      List.mem_map_of_mem _ hoi
    rw [hids] at hmem
    obtain ⟨it, hit, heq⟩ := List.mem_map.mp hmem
    obtain ⟨d, hf, _⟩ := validateLines_ok_forall hv it hit
    rw [← heq, hf]
    rfl
  obtain ⟨l, hl⟩ := orderPlacedItems_ok_of_present hpres
  refine ⟨l, ?_⟩
  rw [create_order, if_pos hu, hv]
  dsimp only [finishOrder, postCommitPhase]
  rw [hl]

theorem create_order_ok_inv {db : DB} {o : OrderCreate} {ord : OrderRec}
    (h : (create_order db o).1 = .ok ord) :
    db.users.contains o.user_id = true ∧
    ∃ t ois, validateLines db.inventory o.items = .ok (t, ois) ∧
      ord = ⟨db.nextOrderId, o.user_id, t, "confirmed", ois⟩ := by
  by_cases hu : db.users.contains o.user_id = true
  · refine ⟨hu, ?_⟩
    cases hv : validateLines db.inventory o.items with
    | error e =>
      rw [create_order, if_pos hu, hv] at h
      cases h
    | ok v =>
      obtain ⟨t, ois⟩ := v
      refine ⟨t, ois, rfl, ?_⟩
      obtain ⟨l, heq⟩ := create_order_of_valid hu hv
      rw [heq] at h
      dsimp only at h
      injection h with h2
      exact h2.symm
  · rw [create_order, if_neg hu] at h
    cases h

/-! ## Lemmas about `removeFirst` -/

theorem removeFirst_length {l : List Conn} {w : Conn} (h : w ∈ l) :
    (removeFirst l w).length + 1 = l.length := by
  induction l with
  | nil => cases h
  | cons c tl ih =>
    rw [removeFirst]
    by_cases hc : c = w
    · rw [if_pos hc]
      rfl
    · have hm : w ∈ tl := by
        cases h with
        | head => exact absurd rfl hc
        | tail _ hm => exact hm
      have ih2 := ih hm
      rw [if_neg hc]
      simp only [List.length_cons]
      omega

theorem removeFirst_count_self {l : List Conn} {w : Conn} (h : w ∈ l) :
    countConn (removeFirst l w) w + 1 = countConn l w := by
  induction l with
  | nil => cases h
  | cons c tl ih =>
    rw [removeFirst]
    by_cases hc : c = w
    · rw [if_pos hc]
      subst hc
      simp [countConn, List.countP_cons]
    · have hm : w ∈ tl := by
        cases h with
        | head => exact absurd rfl hc
        | tail _ hm => exact hm
      have ih2 := ih hm
      rw [if_neg hc]
      simp only [countConn, List.countP_cons, decide_eq_true_eq] at ih2 ⊢
      rw [if_neg hc]
      omega

theorem removeFirst_count_ne (l : List Conn) {v w : Conn} (hvw : v ≠ w) :
    countConn (removeFirst l w) v = countConn l v := by
  induction l with
  | nil => rfl
  | cons c tl ih =>
    rw [removeFirst]
    by_cases hc : c = w
    · rw [if_pos hc]
      subst hc
      have : decide (c = v) = false := by
        simp only [decide_eq_false_iff_not]
        intro he
        exact hvw (he.symm)
      simp [countConn, List.countP_cons, this]
    · rw [if_neg hc]
      simp only [countConn, List.countP_cons] at ih ⊢
      rw [ih]

/-! ## The claims -/

/-- C1: the claim says stock never goes negative and an order whose
decrement would cross zero is rejected, in particular for orders with
several lines on the same item. The code violates this: each line is
validated against the same unmodified stock figure, so two lines of 3
units against stock 5 both pass, the order commits, and the post-commit
loop drives the stock to -1. This theorem evaluates the handler at that
input: the full pipeline (schema validation included) accepts the order
and the final stock of item 1 is -1. -/
theorem C1_duplicate_lines_drive_stock_negative :
    (submit_order dbA reqDup).1 =
      .ok ⟨1, 7, 60, "confirmed", [⟨1, 3, 10⟩, ⟨1, 3, 10⟩]⟩ ∧
    (submit_order dbA reqDup).2.1.inventory = [⟨1, "A", -1, 10⟩] := by
  norm_num [submit_order, orderCreateSchemaValid, orderItemSchemaValid, create_order,
    dbA, reqDup, validateLines, findItem, finishOrder, postCommitPhase,
    applyDecrements, updateStock, orderPlacedItems]

/-- C2: when any line of the order fails validation (missing item or
insufficient stock against the pre-call inventory), `create_order`
returns an error, leaves the database — hence the stock of every
referenced item — exactly as it was, persists no order, and broadcasts
nothing. This holds because the validation loop performs no write and
runs to the first failure before any mutation. -/
theorem C2_failed_validation_is_all_or_nothing (db : DB) (o : OrderCreate)
    (h : ∃ it ∈ o.items, ¬ lineOk db.inventory it) :
    ∃ e, create_order db o = (.error e, db, []) := by
  by_cases hu : db.users.contains o.user_id = true
  · obtain ⟨e, he⟩ := validateLines_error_of_bad h
    exact ⟨e, by rw [create_order, if_pos hu, he]⟩
  · exact ⟨⟨404, "User not found"⟩, by rw [create_order, if_neg hu]⟩

/-- Witness for C2 at the spec scenario: item A (id 1) has stock 5, the
request asks for 3 of A and 2 of the nonexistent item 2; the order fails
and the database, including A's stock, is untouched. -/
theorem C2_witness :
    (∃ e, create_order dbA reqAB3 = (.error e, dbA, [])) ∧
    (create_order dbA reqAB3).1 = .error ⟨404, "Inventory item 2 not found"⟩ :=
  ⟨C2_failed_validation_is_all_or_nothing dbA reqAB3 (by
    refine ⟨⟨2, 2, 1⟩, by simp [reqAB3], ?_⟩
    rintro ⟨d, hd, _⟩
    simp [findItem, dbA] at hd), rfl⟩

/-- C3: the claim says that when one observer's send fails, every other
observer still receives the event, the failing one is removed, and
nothing is raised. The removal inside the iteration shifts the list, so
the observer directly after the failing one is skipped: with active list
[obsA, obsB, obsC] and obsA failing, only obsC receives the event, while
obsB — one of the N-1 others — does not. The failing observer is indeed
removed and `broadcast` is total (the claim's other two parts hold). -/
theorem C3_broadcast_skips_observer_after_failure :
    broadcast [obsA, obsB, obsC] = ([obsB, obsC], [obsC]) := rfl

/-- C4 counterexample: a committed order with two lines on the same item
broadcasts two `inventory_update` events for that one distinct item (with
the intermediate stocks 2 and -1), refuting "exactly one inventory_update
event per distinct mutated InventoryItem". -/
theorem C4_counterexample_two_events_for_one_item :
    (create_order dbA reqDup).2.2 =
      [Event.inventory_update 1 "A" 2 10,
       Event.inventory_update 1 "A" (-1) 10,
       Event.order_placed 1 7 60 [(1, "A", 3, 10), (1, "A", 3, 10)]] := by
  norm_num [create_order, dbA, reqDup, validateLines, findItem, finishOrder,
    postCommitPhase, applyDecrements, updateStock, orderPlacedItems]

/-- C4 (amended): on success the broadcast sequence is one
`inventory_update` per order line — in request order, each carrying that
line's item id — followed by exactly one `order_placed` with the
committed order's id, user and total; when the handler fails nothing is
broadcast. (Per line, not per distinct item: an item referenced by two
lines gets two events.) -/
theorem C4_event_sequence (db : DB) (o : OrderCreate) :
    (∀ ord, (create_order db o).1 = .ok ord →
       ∃ invEvs msgItems,
         (create_order db o).2.2 =
           invEvs ++ [Event.order_placed ord.id ord.user_id ord.total_amount msgItems] ∧
         invEvs = (applyDecrements db.inventory o.items).2 ∧
         invEvs.map eventInvId = o.items.map (fun it => some it.inventory_id)) ∧
    (∀ e, (create_order db o).1 = .error e → (create_order db o).2.2 = []) := by
  constructor
  · intro ord hok
    obtain ⟨hu, t, ois, hv, hord⟩ := create_order_ok_inv hok
    obtain ⟨l, heq⟩ := create_order_of_valid hu hv
    subst hord
    refine ⟨(applyDecrements db.inventory o.items).2, l, by rw [heq], rfl, ?_⟩
    refine applyDecrements_events_ids o.items db.inventory ?_
    intro it hit
    obtain ⟨d, hf, _⟩ := validateLines_ok_forall hv it hit
    rw [hf]
    rfl
  · intro e herr
    by_cases hu : db.users.contains o.user_id = true
    · cases hv : validateLines db.inventory o.items with
      | error e2 => rw [create_order, if_pos hu, hv]
      | ok v =>
        obtain ⟨t, ois⟩ := v
        obtain ⟨l, heq⟩ := create_order_of_valid hu hv
        rw [heq] at herr
        dsimp only at herr
        cases herr
    · rw [create_order, if_neg hu]

/-- Witness for C4 at a successful commit (the duplicate-line order): the
event list splits as the per-line `inventory_update`s followed by the one
`order_placed`. -/
theorem C4_witness :
    ∃ invEvs msgItems,
      (create_order dbA reqDup).2.2 =
        invEvs ++ [Event.order_placed 1 7 60 msgItems] ∧
      invEvs = (applyDecrements dbA.inventory reqDup.items).2 ∧
      invEvs.map eventInvId = reqDup.items.map (fun it => some it.inventory_id) :=
  (C4_event_sequence dbA reqDup).1 ⟨1, 7, 60, "confirmed", [⟨1, 3, 10⟩, ⟨1, 3, 10⟩]⟩
    (by norm_num [create_order, dbA, reqDup, validateLines, findItem, finishOrder,
      postCommitPhase, applyDecrements, updateStock, orderPlacedItems])

/-- C5: a committed order's total equals the sum over its persisted lines
of quantity times the snapshotted unit price, and every snapshot is the
price of the item as found in the pre-call inventory (captured during
validation, not re-read afterwards). -/
theorem C5_total_matches_snapshots (db : DB) (o : OrderCreate) (ord : OrderRec)
    (h : (create_order db o).1 = .ok ord) :
    ord.total_amount =
      (ord.items.map (fun li => (li.quantity : ℚ) * li.unit_price)).sum ∧
    ∀ li ∈ ord.items, ∃ d, findItem db.inventory li.inventory_id = some d ∧
      li.unit_price = d.price := by
  obtain ⟨hu, t, ois, hv, hord⟩ := create_order_ok_inv h
  subst hord
  exact ⟨validateLines_ok_total hv, validateLines_ok_snapshot hv⟩

/-- Witness for C5 at the spec scenario (2 of A at 10 plus 1 of B at 5):
the committed total is 25 and equals the sum of the snapshots. -/
theorem C5_witness :
    (create_order dbAB req25).1 = .ok ord25 ∧
    (ord25.total_amount =
       (ord25.items.map (fun li => (li.quantity : ℚ) * li.unit_price)).sum ∧
     ∀ li ∈ ord25.items, ∃ d, findItem dbAB.inventory li.inventory_id = some d ∧
       li.unit_price = d.price) := by
  have h : (create_order dbAB req25).1 = .ok ord25 := by
    norm_num [create_order, dbAB, req25, ord25, validateLines, findItem, finishOrder,
      postCommitPhase, applyDecrements, updateStock, orderPlacedItems]
  exact ⟨h, C5_total_matches_snapshots dbAB req25 ord25 h⟩

/-- C6 counterexample: requesting 6 units and requesting 7 units of an
item with stock 5 produce literally identical handler results (the same
error value), so the insufficient-stock error cannot be naming the
requested quantity, refuting that part of the claim. The error carries
only the item name and the available quantity. -/
theorem C6_counterexample_error_lacks_requested :
    create_order dbA reqSix = create_order dbA reqSeven ∧
    reqSix ≠ reqSeven ∧
    (create_order dbA reqSix).1 =
      .error ⟨400, "Insufficient stock for A. Available: 5"⟩ := by
  refine ⟨?_, ?_, ?_⟩
  · rfl
  · simp [reqSix, reqSeven]
  · rfl

/-- C6 (amended): with every earlier line satisfiable, a line whose item
does not exist fails the whole order with a 404 naming the missing id,
and a line whose item has stock below the requested quantity fails it
with a 400 naming the item and the available quantity (but not the
requested quantity); in both cases the database is unchanged and nothing
is broadcast. Lines that pass neither check pass validation. -/
theorem C6_first_failing_line (db : DB) (o : OrderCreate)
    (pre : List OrderItemCreate) (it : OrderItemCreate)
    (rest : List OrderItemCreate)
    (hitems : o.items = pre ++ it :: rest)
    (hu : db.users.contains o.user_id = true)
    (hpre : ∀ p ∈ pre, lineOk db.inventory p) :
    (findItem db.inventory it.inventory_id = none →
       create_order db o =
         (.error ⟨404, "Inventory item " ++ toString it.inventory_id ++ " not found"⟩,
          db, [])) ∧
    (∀ d, findItem db.inventory it.inventory_id = some d →
       d.stock_quantity < it.quantity →
       create_order db o =
         (.error ⟨400, "Insufficient stock for " ++ d.name ++ ". Available: " ++
                  toString d.stock_quantity⟩, db, [])) := by
  constructor
  · intro hf
    have hl : validateLines db.inventory (it :: rest) =
        .error ⟨404, "Inventory item " ++ toString it.inventory_id ++ " not found"⟩ := by
      rw [validateLines, hf]
    rw [create_order, if_pos hu, hitems, validateLines_append_ok_prefix hpre hl]
  · intro d hf hs
    have hl : validateLines db.inventory (it :: rest) =
        .error ⟨400, "Insufficient stock for " ++ d.name ++ ". Available: " ++
                toString d.stock_quantity⟩ := by
      rw [validateLines, hf]
      dsimp only
      rw [if_pos hs]
    rw [create_order, if_pos hu, hitems, validateLines_append_ok_prefix hpre hl]

/-- Witness for C6: against `dbAB`, a request whose second line names the
missing item 9 fails with the 404 naming 9, and a request for 9 units of
item 2 (stock 5) fails with the 400 naming B and the available 5. -/
theorem C6_witness :
    create_order dbAB reqMissing9 =
      (.error ⟨404, "Inventory item 9 not found"⟩, dbAB, []) ∧
    create_order dbAB reqBNine =
      (.error ⟨400, "Insufficient stock for B. Available: 5"⟩, dbAB, []) := by
  constructor
  · exact (C6_first_failing_line dbAB reqMissing9 [⟨1, 2, 1⟩] ⟨9, 2, 1⟩ [] rfl rfl
      (by
        intro p hp
        simp only [List.mem_singleton] at hp
        subst hp
        exact ⟨⟨1, "A", 5, 10⟩, rfl, by norm_num⟩)).1 rfl
  · exact (C6_first_failing_line dbAB reqBNine [] ⟨2, 9, 1⟩ [] rfl rfl
      (by intro p hp; cases hp)).2 ⟨2, "B", 5, 5⟩ rfl (by norm_num)

/-- C7 counterexample: an order request with an empty line list passes
the schema validation (there is no minimum-length constraint) and is
committed with total 0 — refuting "fails with a ValidationError whenever
the sequence of line requests is empty; an empty order request is never
committed". -/
theorem C7_counterexample_empty_order_commits :
    (submit_order dbA reqEmpty).1 = .ok ⟨1, 7, 0, "confirmed", []⟩ ∧
    (submit_order dbA reqEmpty).2.1.orders = [⟨1, 7, 0, "confirmed", []⟩] := by
  norm_num [submit_order, orderCreateSchemaValid, orderItemSchemaValid, create_order,
    dbA, reqEmpty, validateLines, finishOrder, postCommitPhase, applyDecrements,
    orderPlacedItems]

/-- C7 (amended): a request in which some line's quantity is ≤ 0 is
rejected by the schema validation (422) before the handler runs, with the
database untouched; but an empty line list is not rejected — provided the
body passes its other field constraints and the user exists, the handler
commits an order with total 0 and broadcasts its `order_placed`. -/
theorem C7_schema_validation (db : DB) (o : OrderCreate) :
    ((∃ it ∈ o.items, it.quantity ≤ 0) →
       submit_order db o =
         (.error ⟨422, "request body failed schema validation"⟩, db, [])) ∧
    (o.items = [] → 0 < o.total_amount → db.users.contains o.user_id = true →
       submit_order db o =
         (.ok ⟨db.nextOrderId, o.user_id, 0, "confirmed", []⟩,
          { db with
              orders := db.orders ++ [⟨db.nextOrderId, o.user_id, 0, "confirmed", []⟩],
              nextOrderId := db.nextOrderId + 1 },
          [Event.order_placed db.nextOrderId o.user_id 0 []])) := by
  constructor
  · rintro ⟨it, hmem, hq⟩
    have hval : orderCreateSchemaValid o = false := by
      apply Bool.eq_false_iff.mpr
      intro htrue
      rw [orderCreateSchemaValid, Bool.and_eq_true, List.all_eq_true] at htrue
      have h2 := htrue.2 it hmem
      rw [orderItemSchemaValid, Bool.and_eq_true] at h2
      have h3 := h2.1
      simp only [decide_eq_true_eq] at h3
      omega
    rw [submit_order, hval]
    rfl
  · intro hnil htot hu
    have hval : orderCreateSchemaValid o = true := by
      rw [orderCreateSchemaValid, hnil]
      simp [htot]
    rw [submit_order, hval, if_pos rfl, create_order, if_pos hu, hnil]
    dsimp only [validateLines, finishOrder, postCommitPhase]
    rw [hnil]
    rfl

/-- Witness for C7: the quantity -1 request is rejected with 422, and the
empty request commits with total 0 and an `order_placed` broadcast. -/
theorem C7_witness :
    submit_order dbA reqNeg =
      (.error ⟨422, "request body failed schema validation"⟩, dbA, []) ∧
    submit_order dbA reqEmpty =
      (.ok ⟨1, 7, 0, "confirmed", []⟩,
       { dbA with orders := [⟨1, 7, 0, "confirmed", []⟩], nextOrderId := 2 },
       [Event.order_placed 1 7 0 []]) := by
  constructor
  · exact (C7_schema_validation dbA reqNeg).1 ⟨⟨1, -1, 1⟩, by simp [reqNeg], by norm_num⟩
  · exact (C7_schema_validation dbA reqEmpty).2 rfl (by norm_num [reqEmpty]) rfl

/-- C8 counterexample: `disconnect` on an observer that is not in the
active set raises `ValueError` (Python `list.remove` semantics) instead
of being a silent no-op, refuting the idempotence claim. -/
theorem C8_counterexample_absent_disconnect_raises :
    disconnect [] w0 = .error .valueError := rfl

/-- C8 (amended): `disconnect` removes exactly one occurrence — the first
— of the observer when it is present (all other observers keep their
multiplicities), and raises `ValueError` when it is absent; it is
therefore not idempotent. -/
theorem C8_disconnect_not_idempotent (conns : List Conn) (w : Conn) :
    (w ∉ conns → disconnect conns w = .error .valueError) ∧
    (∀ conns2, disconnect conns w = .ok conns2 →
       conns2.length + 1 = conns.length ∧
       countConn conns2 w + 1 = countConn conns w ∧
       ∀ v, v ≠ w → countConn conns2 v = countConn conns v) := by
  constructor
  · intro habs
    rw [disconnect, if_neg habs]
  · intro conns2 hok
    by_cases hmem : w ∈ conns
    · rw [disconnect, if_pos hmem] at hok
      injection hok with hok2
      subst hok2
      exact ⟨removeFirst_length hmem, removeFirst_count_self hmem,
        fun v hv => removeFirst_count_ne conns hv⟩
    · rw [disconnect, if_neg hmem] at hok
      cases hok

/-- Witness for C8: disconnecting `w0` from an active set holding only
`w1` raises, while disconnecting it from [w0, w1] removes just that one
entry. -/
theorem C8_witness :
    disconnect [w1] w0 = .error .valueError ∧
    (([w1] : List Conn).length + 1 = ([w0, w1] : List Conn).length ∧
     countConn [w1] w0 + 1 = countConn [w0, w1] w0 ∧
     ∀ v, v ≠ w0 → countConn [w1] v = countConn [w0, w1] v) := by
  constructor
  · exact (C8_disconnect_not_idempotent [w1] w0).1 (by simp [w0, w1])
  · exact (C8_disconnect_not_idempotent [w0, w1] w0).2 [w1] (by
      rw [disconnect, if_pos (List.mem_cons_self w0 [w1])]
      rfl)

/-- C9: the claim says two concurrent submissions for the last unit of
stock never both succeed. No lock or transaction spans the handler's
validate-then-decrement sequence, so in the interleaving where both
requests validate before either decrements, both orders for item 1's
single unit are accepted and the final stock is -1 — the code provides no
isolation. -/
theorem C9_race_both_orders_succeed :
    (race_both_validate_first dbRace reqOne reqOne).1 =
      .ok ⟨1, 7, 10, "confirmed", [⟨1, 1, 10⟩]⟩ ∧
    (race_both_validate_first dbRace reqOne reqOne).2.1 =
      .ok ⟨2, 7, 10, "confirmed", [⟨1, 1, 10⟩]⟩ ∧
    (race_both_validate_first dbRace reqOne reqOne).2.2.inventory =
      [⟨1, "A", -1, 10⟩] := by
  refine ⟨?_, ?_, ?_⟩ <;>
    norm_num [race_both_validate_first, dbRace, reqOne, validateLines, findItem,
      finishOrder, postCommitPhase, applyDecrements, updateStock, orderPlacedItems]

/-- C10 counterexample: with items A and B validated but B deleted before
the post-commit loop, the handler skips B's decrement and its
`inventory_update` as claimed — but it then raises while building the
`order_placed` message (reading the vanished item's name through the lazy
relationship), so it returns an error, not the committed order as a
success; the order itself stays committed. -/
theorem C10_counterexample_returns_error_not_success :
    (create_order_interfered dbAB invNoB reqAB).1 =
      .error ⟨500, "AttributeError"⟩ ∧
    (create_order_interfered dbAB invNoB reqAB).2.1.orders =
      [⟨1, 7, 15, "confirmed", [⟨1, 1, 10⟩, ⟨2, 1, 5⟩]⟩] ∧
    (create_order_interfered dbAB invNoB reqAB).2.2 =
      [Event.inventory_update 1 "A" 4 10] := by
  refine ⟨?_, ?_, ?_⟩ <;>
    norm_num [create_order_interfered, dbAB, invNoB, reqAB, validateLines, findItem,
      finishOrder, postCommitPhase, applyDecrements, updateStock, orderPlacedItems]

/-- C10 (amended): when a validated line's item is gone by the time the
post-commit loop runs, that line's stock decrement and `inventory_update`
are skipped silently (no event ever names the missing item) and the order
stays committed; but `create_order` does not return the committed order
as a success — it fails with the AttributeError raised while building the
`order_placed` message from the missing item's name. -/
theorem C10_missing_item_skipped_but_call_fails (db : DB) (invD : Inventory)
    (o : OrderCreate) (t : ℚ) (ois : List OrderItemRec)
    (hu : db.users.contains o.user_id = true)
    (hv : validateLines db.inventory o.items = .ok (t, ois))
    (hmiss : ∃ it ∈ o.items, findItem invD it.inventory_id = none) :
    (create_order_interfered db invD o).2.1.orders =
      db.orders ++ [⟨db.nextOrderId, o.user_id, t, "confirmed", ois⟩] ∧
    (∀ it ∈ o.items, findItem invD it.inventory_id = none →
       ∀ ev ∈ (create_order_interfered db invD o).2.2,
         eventInvId ev ≠ some it.inventory_id) ∧
    (create_order_interfered db invD o).1 = .error ⟨500, "AttributeError"⟩ := by
  obtain ⟨it0, hmem0, habs0⟩ := hmiss
  have habs_after : findItem (applyDecrements invD o.items).1 it0.inventory_id
      = none := applyDecrements_none habs0 o.items
  have hoi : ∃ oi ∈ ois,
      findItem (applyDecrements invD o.items).1 oi.inventory_id = none := by
    have hids := validateLines_ok_ids hv
    have hmem : it0.inventory_id ∈ o.items.map (fun it => it.inventory_id) :=
      List.mem_map_of_mem _ hmem0
    rw [← hids] at hmem
    obtain ⟨oi, hoi_mem, hoieq⟩ := List.mem_map.mp hmem
    exact ⟨oi, hoi_mem, by rw [hoieq]; exact habs_after⟩
  have hmsg := orderPlacedItems_error_of_absent hoi
  have hrun : create_order_interfered db invD o =
      (.error ⟨500, "AttributeError"⟩,
       { users := db.users,
         inventory := (applyDecrements invD o.items).1,
         orders := db.orders ++ [⟨db.nextOrderId, o.user_id, t, "confirmed", ois⟩],
         nextOrderId := db.nextOrderId + 1 },
       (applyDecrements invD o.items).2) := by
    rw [create_order_interfered, if_pos hu, hv]
    dsimp only [postCommitPhase]
    rw [hmsg]
  refine ⟨by rw [hrun], ?_, by rw [hrun]⟩
  intro it hit habs ev hev
  rw [hrun] at hev
  dsimp only at hev
  exact applyDecrements_no_event_for_absent o.items invD habs ev hev

/-- Witness for C10 at the A/B scenario: the order is committed, no event
names the vanished item 2, and the handler fails with the modelled
AttributeError. -/
theorem C10_witness :
    (create_order_interfered dbAB invNoB reqAB).2.1.orders =
      dbAB.orders ++ [⟨1, 7, 15, "confirmed", [⟨1, 1, 10⟩, ⟨2, 1, 5⟩]⟩] ∧
    (∀ it ∈ reqAB.items, findItem invNoB it.inventory_id = none →
       ∀ ev ∈ (create_order_interfered dbAB invNoB reqAB).2.2,
         eventInvId ev ≠ some it.inventory_id) ∧
    (create_order_interfered dbAB invNoB reqAB).1 =
      .error ⟨500, "AttributeError"⟩ :=
  C10_missing_item_skipped_but_call_fails dbAB invNoB reqAB 15
    [⟨1, 1, 10⟩, ⟨2, 1, 5⟩] rfl
    (by norm_num [validateLines, dbAB, reqAB, findItem])
    ⟨⟨2, 1, 1⟩, by simp [reqAB], rfl⟩

end ToolBox
